import Mathlib

/-!
Shallow embedding of the flag-quiz question-set generator.

The repository contains two near-duplicate implementations of the same
logic: a serverless handler (`src/api/questionset.js`) and an Express dev
server (`src/server.js`).  Both are embedded below.  JavaScript's
`Math.random()` is modelled by an explicit random source `g : Nat → Nat`
together with a consumption counter `k`: the value drawn for a bound `b`
is `g k % b`, which ranges over exactly the values `Math.floor(Math.random()*b)`
can take.  Stateful in-place array operations become pure functions on
`List`, threading the counter.
-/

namespace FlagQuiz

/-! ### JavaScript primitives -/

/-- JS `String.prototype.toLowerCase` (ASCII, which is all the code uses). -/
def jsToLower (s : String) : String := ⟨s.data.map Char.toLower⟩

/-- JS `String.prototype.toUpperCase` (ASCII). -/
def jsToUpper (s : String) : String := ⟨s.data.map Char.toUpper⟩

/-- JS `String(x || dflt)` for an optional query parameter: `undefined` and
the empty string are falsy and fall back to the default. -/
def jsOrDefault (o : Option String) (d : String) : String :=
  match o with
  | none => d
  | some s => if s = "" then d else s

/-- `Array.from(new Set(arr))`: keep the first occurrence of each element,
in order. -/
def uniqueAux (seen : List String) : List String → List String
  | [] => []
  | x :: xs => if x ∈ seen then uniqueAux seen xs else x :: uniqueAux (x :: seen) xs

/-- `unique` from `src/api/questionset.js`. -/
def unique (l : List String) : List String := uniqueAux [] l

/-- One step of `[arr[i], arr[j]] = [arr[j], arr[i]]` on a list; out-of-range
indices leave the list unchanged (they never occur in the shuffle). -/
def listSwap (l : List α) (i j : Nat) : List α :=
  match l.get? i, l.get? j with
  | some a, some b => (l.set i b).set j a
  | _, _ => l

/-- The loop body of `shuffleInPlace`: iterate `i` from `len-1` down to `1`,
consuming one random value per step.  `g k % (i+2)` models
`Math.floor(Math.random() * (i + 1))` at loop index `i+1`. -/
def shuffleAux (g : Nat → Nat) : List α → Nat → Nat → List α × Nat
  | l, k, 0 => (l, k)
  | l, k, i + 1 => shuffleAux g (listSwap l (i + 1) (g k % (i + 2))) (k + 1) i

/-- `shuffleInPlace` (identical in both source files): Fisher–Yates from the
top index down. -/
def shuffleInPlace (g : Nat → Nat) (l : List α) (k : Nat) : List α × Nat :=
  shuffleAux g l k (l.length - 1)

/-- `pickRandomFrom` (`src/api/questionset.js`): shuffle a copy, take `n`. -/
def pickRandomFrom (g : Nat → Nat) (l : List α) (n : Nat) (k : Nat) : List α × Nat :=
  let p := shuffleInPlace g l k
  (p.1.take n, p.2)

/-- `pickRandomDistinct` (`src/server.js`): drop excluded values, shuffle,
take `n`. -/
def pickRandomDistinct (g : Nat → Nat) (l : List String) (n : Nat)
    (exclude : List String) (k : Nat) : List String × Nat :=
  let pool := l.filter (fun x => decide (¬ x ∈ exclude))
  let p := shuffleInPlace g pool k
  (p.1.take n, p.2)

/-- First index of `x`, if present (JS `Array.prototype.indexOf` minus the
`-1` convention, which `jsIndexOf` adds back). -/
def jsIndexOfNat : List String → String → Option Nat
  | [], _ => none
  | y :: ys, x => if y = x then some 0 else (jsIndexOfNat ys x).map (· + 1)

/-- JS `Array.prototype.indexOf`: first index, or `-1` when absent. -/
def jsIndexOf (l : List String) (x : String) : Int :=
  match jsIndexOfNat l x with
  | some i => (i : Int)
  | none => -1

/-! ### Domain data -/

/-- A cached country record.  Only `name.common` and `cca2` are read
downstream, so the embedding keeps exactly those fields. -/
structure Country where
  name : String
  cca2 : String
deriving DecidableEq

/-- A raw record from the external provider; every field may be absent. -/
structure RawCountry where
  nameCommon : Option String
  cca2 : Option String
  unMember : Option Bool
deriving DecidableEq

/-- JS truthiness of an optional string field: present and non-empty. -/
def truthy : Option String → Bool
  | none => false
  | some s => decide (s ≠ "")

/-- `OBSERVER_STATES`. -/
def OBSERVER_STATES : List String := ["Vatican City", "Palestine"]

/-- `isIn195`: UN member, or a named observer state. -/
def isIn195 (c : RawCountry) : Bool :=
  c.unMember == some true ||
    (truthy c.nameCommon && decide ((c.nameCommon.getD "") ∈ OBSERVER_STATES))

/-- `flagUrlFromCca2`. -/
def flagUrlFromCca2 (cca2 : String) : String :=
  "https://flagcdn.com/w320/" ++ jsToLower cca2 ++ ".png"

/-- `TIER_1` (`src/api/questionset.js`). -/
def TIER_1 : List String :=
  ["US","GB","FR","DE","IT","ES","PT","NL","BE","CH","AT","IE",
   "CA","AU","NZ","JP","CN","IN","BR","AR","MX",
   "ZA","EG","TR","RU","KR","SE","NO","DK","FI","PL","GR"]

/-- `TIER_2`. -/
def TIER_2 : List String :=
  ["CZ","HU","RO","BG","UA","HR","RS","SI","SK","LT","LV","EE",
   "IL","SA","AE","QA","KW","OM","IR","IQ","JO","LB","SY",
   "MA","DZ","TN","GH","NG","KE","TZ","UG","CM",
   "TH","VN","MY","SG","ID","PH",
   "CL","PE","CO","VE","EC","BO","PY","UY","CU","DO"]

/-- `TIER_3`. -/
def TIER_3 : List String :=
  ["AD","SM","MC","LI","MT","CY","IS","LU",
   "BS","BB","AG","DM","GD","KN","LC","VC",
   "BZ","GT","HN","SV","NI","CR","PA",
   "BN","LA","KH","MM","NP","LK","BD","PK","AF","MN",
   "SN","ML","NE","TD","BJ","TG","BF","SL","LR","GW","GM","MR",
   "SD","SS","ET","ER","DJ","SO","RW","BI","GA","GQ","ST","KM","SC","MU","MG",
   "MZ","MW","ZM","ZW","LS","SZ","NA","BW",
   "AO","CG","CD",
   "FJ","PG","SB","VU","WS","TO","TV","NR","KI","FM","PW","MH"]

/-- The dedup-by-`cca2` loop of `loadFlagsIntoCache`: keep the first record
per upper-cased code, normalising the stored code to upper case. -/
def dedupByCca2 (seen : List String) : List RawCountry → List Country
  | [] => []
  | c :: cs =>
    let code := jsToUpper (c.cca2.getD "")
    if code ∈ seen then dedupByCca2 seen cs
    else { name := c.nameCommon.getD "", cca2 := code } :: dedupByCca2 (code :: seen) cs

/-- The pure part of `loadFlagsIntoCache`: validity filter, 195-set filter,
dedup by code. -/
def processCountries (all : List RawCountry) : List Country :=
  dedupByCca2 []
    ((all.filter (fun c => truthy c.cca2 && truthy c.nameCommon)).filter isIn195)

/-- The in-memory flags cache (`flagsCache`). -/
structure FlagsCache where
  loaded : Bool
  countries : List Country
deriving DecidableEq

/-- Outcome of `fetch(RESTCOUNTRIES_ALL)` followed by `res.json()`:
a network-level failure, or a response with an `ok` flag, status data and a
body whose JSON parse may itself fail. -/
inductive FetchOutcome where
  | networkError (msg : String)
  | response (ok : Bool) (status : Nat) (statusText : String)
      (body : Except String (List RawCountry))

/-- `loadFlagsIntoCache`: throws (returns `.error`) on network failure,
non-success status or parse failure; only on full success does it produce
the replacement cache value. -/
def loadFlagsIntoCache (f : FetchOutcome) : Except String FlagsCache :=
  match f with
  | .networkError msg => .error msg
  | .response ok status statusText body =>
    if !ok then
      .error ("REST Countries fetch failed: " ++ toString status ++ " " ++ statusText)
    else
      match body with
      | .error e => .error e
      | .ok all => .ok { loaded := true, countries := processCountries all }

/-- The state transition of a load attempt against the module-global cache:
the global is assigned only by the final statement of `loadFlagsIntoCache`,
so a thrown error leaves the previous value in place. -/
def applyLoad (old : FlagsCache) (f : FetchOutcome) : FlagsCache × Except String Unit :=
  match loadFlagsIntoCache f with
  | .ok c => (c, .ok ())
  | .error e => (old, .error e)

/-- `POST /api/reload/flags` (`src/server.js`): reload, answering 200 on
success and 500 (cache untouched) on failure. -/
def reloadFlagsHandler (old : FlagsCache) (f : FetchOutcome) : FlagsCache × Nat :=
  match loadFlagsIntoCache f with
  | .ok c => (c, 200)
  | .error _ => (old, 500)

/-! ### Question construction -/

/-- A generated question.  `correct_index` is the JS `indexOf` result, so it
is an `Int` (`-1` when the name is somehow absent). -/
structure Question where
  prompt_id : String
  image_url : String
  choices : List String
  correct_index : Int
deriving DecidableEq

/-- `buildMultipleChoiceQuestion` (`src/api/questionset.js`): filter out the
correct name, shuffle, take 3 wrong answers, shuffle the four choices. -/
def buildMultipleChoiceQuestion (g : Nat → Nat) (country : Country)
    (allCountries : List Country) (k : Nat) : Question × Nat :=
  let correctName := country.name
  let allNames := allCountries.map (·.name)
  let wrongPool := allNames.filter (fun n => decide (n ≠ correctName))
  let sp := shuffleInPlace g wrongPool k
  let wrong := sp.1.take 3
  let choices0 := correctName :: wrong
  let sc := shuffleInPlace g choices0 sp.2
  ({ prompt_id := country.cca2
     image_url := flagUrlFromCca2 country.cca2
     choices := sc.1
     correct_index := jsIndexOf sc.1 correctName }, sc.2)

/-- `buildMultipleChoiceQuestion` (`src/server.js`): same construction via
`pickRandomDistinct` with an exclusion set. -/
def buildMultipleChoiceQuestionSrv (g : Nat → Nat) (country : Country)
    (allCountries : List Country) (k : Nat) : Question × Nat :=
  let correctName := country.name
  let pw := pickRandomDistinct g (allCountries.map (·.name)) 3 [correctName] k
  let choices0 := correctName :: pw.1
  let sc := shuffleInPlace g choices0 pw.2
  ({ prompt_id := country.cca2
     image_url := flagUrlFromCca2 country.cca2
     choices := sc.1
     correct_index := jsIndexOf sc.1 correctName }, sc.2)

/-- `runCountries.map((c) => buildMultipleChoiceQuestion(c, pool))`,
threading the random counter left to right. -/
def buildQuestionList (g : Nat → Nat) (pool : List Country) :
    List Country → Nat → List Question × Nat
  | [], k => ([], k)
  | c :: cs, k =>
    let qk := buildMultipleChoiceQuestion g c pool k
    let rest := buildQuestionList g pool cs qk.2
    (qk.1 :: rest.1, rest.2)

/-- Same, for the `src/server.js` question builder. -/
def buildQuestionListSrv (g : Nat → Nat) (pool : List Country) :
    List Country → Nat → List Question × Nat
  | [], k => ([], k)
  | c :: cs, k =>
    let qk := buildMultipleChoiceQuestionSrv g c pool k
    let rest := buildQuestionListSrv g pool cs qk.2
    (qk.1 :: rest.1, rest.2)

/-! ### Quickfire tier selection -/

/-- `byCode.get code` for `byCode = new Map(allCountries.map(c => [c.cca2, c]))`:
a JS `Map` keeps the last-inserted value per key. -/
def byCodeGet (pool : List Country) (code : String) : Option Country :=
  pool.reverse.find? (fun c => c.cca2 == code)

/-- `unique(TIER_n).filter((code) => byCode.has(code))`. -/
def eligibleTierCodes (tier : List String) (pool : List Country) : List String :=
  (unique tier).filter (fun code => (byCodeGet pool code).isSome)

/-- `buildTieredQuickfire`: draw up to 10 codes per tier, top any shortfall
up from the unused remainder of the pool (appended to the tier-3 block),
shuffle each block, and resolve codes back to countries. -/
def buildTieredQuickfire (g : Nat → Nat) (allCountries : List Country) (k : Nat) :
    List Country × Nat :=
  let tier1 := eligibleTierCodes TIER_1 allCountries
  let tier2 := eligibleTierCodes TIER_2 allCountries
  let tier3 := eligibleTierCodes TIER_3 allCountries
  let p1 := pickRandomFrom g tier1 10 k
  let p2 := pickRandomFrom g tier2 10 p1.2
  let p3 := pickRandomFrom g tier3 10 p2.2
  let q1 := p1.1
  let q2 := p2.1
  let q3 := p3.1
  let used := q1 ++ q2 ++ q3
  let need := 30 - (q1.length + q2.length + q3.length)
  let topped :=
    if need > 0 then
      let remaining := (allCountries.map (·.cca2)).filter (fun code => decide (¬ code ∈ used))
      let pe := pickRandomFrom g remaining need p3.2
      (q3 ++ pe.1, pe.2)
    else (q3, p3.2)
  let s1 := shuffleInPlace g q1 topped.2
  let s2 := shuffleInPlace g q2 s1.2
  let s3 := shuffleInPlace g topped.1 s2.2
  let runCodes := s1.1 ++ s2.1 ++ s3.1
  (runCodes.filterMap (byCodeGet allCountries), s3.2)

/-! ### HTTP handlers -/

/-- The success payload of the question-set endpoint.  `generatedAt` and
`quickfireRamp` appear only in the serverless variant. -/
structure SuccessBody where
  mode : String
  category : String
  totalPlanned : Nat
  totalAvailable : Nat
  totalUsed : Nat
  questions : List Question
  generatedAt : Option Nat
  quickfireRamp : Option (Nat × Nat × Nat)
deriving DecidableEq

/-- A handler outcome: an error response, or a JSON success (status 200)
with its response headers. -/
inductive HandlerResult where
  | err (status : Nat) (msg : String)
  | success (headers : List (String × String)) (body : SuccessBody)
deriving DecidableEq

/-- HTTP status of a result. -/
def HandlerResult.statusOf : HandlerResult → Nat
  | .err s _ => s
  | .success _ _ => 200

/-- Whether the result is a success response. -/
def HandlerResult.isSuccess : HandlerResult → Bool
  | .err _ _ => false
  | .success _ _ => true

/-- The questions of a success response, `[]` for errors. -/
def HandlerResult.questionsOf : HandlerResult → List Question
  | .err _ _ => []
  | .success _ b => b.questions

/-- The response headers, `[]` for errors. -/
def HandlerResult.headersOf : HandlerResult → List (String × String)
  | .err _ _ => []
  | .success h _ => h

/-- `totalPlanned` of a success response, `0` for errors. -/
def HandlerResult.totalPlannedOf : HandlerResult → Nat
  | .err _ _ => 0
  | .success _ b => b.totalPlanned

/-- Erase the `Date.now()` timestamp from a result. -/
def stripGeneratedAt : HandlerResult → HandlerResult
  | .err s m => .err s m
  | .success h b => .success h { b with generatedAt := none }

/-- The serverless handler `module.exports` of `src/api/questionset.js`.
`fetched` is the outcome the `fetch` would have if the cache needs loading;
`now` is `Date.now()`. -/
def questionsetHandler (g : Nat → Nat) (k : Nat) (fetched : FetchOutcome)
    (cache : FlagsCache) (modeQ categoryQ : Option String) (now : Nat) :
    HandlerResult :=
  let mode := jsToLower (jsOrDefault modeQ "quickfire")
  let category := jsToLower (jsOrDefault categoryQ "flags")
  if category ≠ "flags" then
    .err 400 "Unknown category. Only \x27flags\x27 supported right now."
  else
    match (if cache.loaded then .ok cache else loadFlagsIntoCache fetched :
        Except String FlagsCache) with
    | .error e => .err 500 e
    | .ok cache1 =>
      let totalPlanned := if mode = "hardmode" then 195 else 30
      let run :=
        if mode = "hardmode" then
          let sp := shuffleInPlace g cache1.countries k
          (sp.1.take 195, sp.2)
        else
          let bq := buildTieredQuickfire g cache1.countries k
          (bq.1.take 30, bq.2)
      let qs := buildQuestionList g cache1.countries run.1 run.2
      .success
        [("Cache-Control", "no-store, no-cache, must-revalidate, proxy-revalidate"),
         ("Pragma", "no-cache"),
         ("Expires", "0")]
        { mode := mode
          category := category
          totalPlanned := totalPlanned
          totalAvailable := cache1.countries.length
          totalUsed := qs.1.length
          questions := qs.1
          generatedAt := some now
          quickfireRamp := if mode ≠ "hardmode" then some (10, 10, 10) else none }

/-- The Express handler `app.get("/api/questionset")` of `src/server.js`.
It never loads the cache itself (503 when unloaded), sets no response
headers, and scaffolds a `football_flags` category answering 501. -/
def serverQuestionsetHandler (g : Nat → Nat) (k : Nat) (cache : FlagsCache)
    (modeQ categoryQ : Option String) : HandlerResult :=
  let mode := jsToLower (jsOrDefault modeQ "quickfire")
  let category := jsToLower (jsOrDefault categoryQ "flags")
  if category ≠ "flags" ∧ category ≠ "football_flags" then
    .err 400 "Unknown category. Use flags (for now)."
  else if !cache.loaded then
    .err 503 "Flags data is still loading. Try again in a moment."
  else if category = "flags" then
    let totalPlanned := if mode = "hardmode" then 195 else 30
    let sp := shuffleInPlace g cache.countries k
    let runCountries := if mode = "hardmode" then sp.1.take 195 else sp.1.take 30
    let qs := buildQuestionListSrv g cache.countries runCountries sp.2
    .success []
      { mode := mode
        category := category
        totalPlanned := totalPlanned
        totalAvailable := cache.countries.length
        totalUsed := qs.1.length
        questions := qs.1
        generatedAt := none
        quickfireRamp := none }
  else
    .err 501 "football_flags not implemented yet. Next step: choose \x27national teams\x27 or \x27clubs\x27 dataset."

/-! ### Concrete fixtures used to instantiate theorems -/

/-- A degenerate random source: always 0 (every swap targets index 0). -/
def gZero : Nat → Nat := fun _ => 0

/-- A random source realising the identity shuffle on the first two
shuffles of a 4-element list: it returns, in order, 3, 2, 1, 3, 2, 1. -/
def gSeq : Nat → Nat := fun k => ([3, 2, 1, 3, 2, 1].getD k 0)

/-- A pool with five countries but only four distinct display names
("B" appears under two different codes). -/
def poolDupName : List Country :=
  [⟨"A", "AA"⟩, ⟨"B", "BB"⟩, ⟨"B", "BC"⟩, ⟨"C", "CC"⟩, ⟨"D", "DD"⟩]

/-- A loaded two-country cache. -/
def cache2 : FlagsCache := ⟨true, [⟨"Albania", "AL"⟩, ⟨"Brazil", "BR"⟩]⟩

/-- A loaded cache of 30 countries with pairwise distinct codes. -/
def pool30 : List Country :=
  (List.range 30).map (fun i => ⟨"Name" ++ toString i, "K" ++ toString i⟩)

/-- A pool of four distinctly named countries. -/
def pool4 : List Country :=
  [⟨"A", "AA"⟩, ⟨"B", "BB"⟩, ⟨"C", "CC"⟩, ⟨"D", "DD"⟩]

/-! ### Shuffle permutation lemmas -/

theorem listSwap_length (l : List α) (i j : Nat) :
    (listSwap l i j).length = l.length := by
  unfold listSwap
  split <;> simp_all

theorem listSwap_eq_of_lt {l : List α} {i j : Nat} (hi : i < l.length)
    (hj : j < l.length) :
    listSwap l i j = (l.set i (l.get ⟨j, hj⟩)).set j (l.get ⟨i, hi⟩) := by
  unfold listSwap
  rw [List.get?_eq_get hi, List.get?_eq_get hj]

theorem cons_perm_get_set (x : α) :
    ∀ (xs : List α) (m : Nat) (h : m < xs.length),
      List.Perm (x :: xs) (xs.get ⟨m, h⟩ :: xs.set m x)
  | y :: t, 0, _ => by simpa using List.Perm.swap y x t
  | y :: t, m + 1, h => by
    have ih := cons_perm_get_set x t m (Nat.lt_of_succ_lt_succ h)
    have h1 : List.Perm (x :: y :: t) (y :: x :: t) := List.Perm.swap y x t
    have h2 := List.Perm.cons y ih
    have h3 := List.Perm.swap (t.get ⟨m, Nat.lt_of_succ_lt_succ h⟩) y (t.set m x)
    simpa using (h1.trans h2).trans h3

theorem listSwap_perm (l : List α) :
    ∀ (i j : Nat), i < l.length → j < l.length →
      List.Perm (listSwap l i j) l := by
  induction l with
  | nil => intro i j hi _; simp at hi
  | cons y t ih =>
    intro i j hi hj
    rw [listSwap_eq_of_lt hi hj]
    cases i with
    | zero =>
      cases j with
      | zero => simp
      | succ m =>
        have hm : m < t.length := Nat.lt_of_succ_lt_succ hj
        have := (cons_perm_get_set y t m hm).symm
        simpa using this
    | succ n =>
      have hn : n < t.length := Nat.lt_of_succ_lt_succ hi
      cases j with
      | zero =>
        have := (cons_perm_get_set y t n hn).symm
        simpa using this
      | succ m =>
        have hm : m < t.length := Nat.lt_of_succ_lt_succ hj
        have hrec := ih n m hn hm
        rw [listSwap_eq_of_lt hn hm] at hrec
        simpa using List.Perm.cons y hrec

theorem shuffleAux_perm (g : Nat → Nat) :
    ∀ (i : Nat) (l : List α) (k : Nat), i < l.length →
      List.Perm (shuffleAux g l k i).1 l := by
  intro i
  induction i with
  | zero => intro l k _; simp [shuffleAux]
  | succ n ihn =>
    intro l k hlt
    have hj : g k % (n + 2) < l.length :=
      lt_of_lt_of_le (Nat.mod_lt _ (by omega)) (by omega)
    have hswap := listSwap_perm l (n + 1) (g k % (n + 2)) hlt hj
    have hlen := listSwap_length l (n + 1) (g k % (n + 2))
    have hrec := ihn (listSwap l (n + 1) (g k % (n + 2))) (k + 1) (by omega)
    simpa [shuffleAux] using hrec.trans hswap

theorem shuffleInPlace_perm (g : Nat → Nat) (l : List α) (k : Nat) :
    List.Perm (shuffleInPlace g l k).1 l := by
  cases l with
  | nil => simp [shuffleInPlace, shuffleAux]
  | cons x xs =>
    have : (x :: xs).length - 1 < (x :: xs).length := by simp
    simpa [shuffleInPlace] using shuffleAux_perm g ((x :: xs).length - 1) (x :: xs) k this

theorem shuffleInPlace_length (g : Nat → Nat) (l : List α) (k : Nat) :
    (shuffleInPlace g l k).1.length = l.length :=
  (shuffleInPlace_perm g l k).length_eq

theorem shuffleInPlace_mem (g : Nat → Nat) {l : List α} (k : Nat) {x : α} :
    x ∈ (shuffleInPlace g l k).1 ↔ x ∈ l :=
  (shuffleInPlace_perm g l k).mem_iff

theorem shuffleInPlace_nodup (g : Nat → Nat) {l : List α} (k : Nat)
    (h : l.Nodup) : (shuffleInPlace g l k).1.Nodup :=
  ((shuffleInPlace_perm g l k).nodup_iff).mpr h

/-! ### List helper lemmas -/

theorem mem_uniqueAux {x : String} :
    ∀ (l seen : List String), x ∈ uniqueAux seen l → x ∈ l := by
  intro l
  induction l with
  | nil => intro seen h; simp [uniqueAux] at h
  | cons y ys ih =>
    intro seen h
    by_cases hy : y ∈ seen
    · simp only [uniqueAux, if_pos hy] at h
      exact List.mem_cons_of_mem _ (ih seen h)
    · simp only [uniqueAux, if_neg hy, List.mem_cons] at h
      rcases h with h | h
      · simp [h]
      · exact List.mem_cons_of_mem _ (ih _ h)

theorem not_mem_seen_uniqueAux {x : String} :
    ∀ (l seen : List String), x ∈ uniqueAux seen l → x ∉ seen := by
  intro l
  induction l with
  | nil => intro seen h; simp [uniqueAux] at h
  | cons y ys ih =>
    intro seen h
    by_cases hy : y ∈ seen
    · simp only [uniqueAux, if_pos hy] at h
      exact ih seen h
    · simp only [uniqueAux, if_neg hy, List.mem_cons] at h
      rcases h with h | h
      · simpa [h] using hy
      · have := ih (y :: seen) h
        intro hx
        exact this (List.mem_cons_of_mem _ hx)

theorem nodup_uniqueAux : ∀ (l seen : List String), (uniqueAux seen l).Nodup := by
  intro l
  induction l with
  | nil => intro seen; simp [uniqueAux]
  | cons y ys ih =>
    intro seen
    by_cases hy : y ∈ seen
    · simpa [uniqueAux, if_pos hy] using ih seen
    · simp only [uniqueAux, if_neg hy]
      refine List.nodup_cons.mpr ⟨?_, ih (y :: seen)⟩
      intro hmem
      exact not_mem_seen_uniqueAux ys (y :: seen) hmem (List.mem_cons_self y seen)

theorem nodup_unique (l : List String) : (unique l).Nodup :=
  nodup_uniqueAux l []

theorem mem_unique {x : String} {l : List String} (h : x ∈ unique l) : x ∈ l :=
  mem_uniqueAux l [] h

/-- Removing one occurrence of a member from a duplicate-free list by
filtering drops its length by exactly one. -/
theorem length_filter_ne_of_nodup [DecidableEq α] :
    ∀ (l : List α) (a : α), l.Nodup → a ∈ l →
      (l.filter (fun x => decide (x ≠ a))).length + 1 = l.length := by
  intro l
  induction l with
  | nil => intro a _ h; simp at h
  | cons x xs ih =>
    intro a hnd hmem
    have hx : x ∉ xs := (List.nodup_cons.mp hnd).1
    have hxs : xs.Nodup := (List.nodup_cons.mp hnd).2
    by_cases hxa : x = a
    · subst hxa
      have hall : xs.filter (fun y => decide (y ≠ x)) = xs := by
        apply List.filter_eq_self.mpr
        intro b hb
        simp only [decide_eq_true_eq]
        intro hbx
        exact hx (hbx ▸ hb)
      rw [List.filter_cons, hall]
      simp
    · have hmem2 : a ∈ xs := by
        rcases List.mem_cons.mp hmem with h | h
        · exact absurd h.symm hxa
        · exact h
      have := ih a hxs hmem2
      simp only [List.filter_cons, decide_eq_true_eq]
      rw [if_pos hxa]
      simp only [List.length_cons]
      omega

theorem jsIndexOfNat_spec :
    ∀ (l : List String) (x : String), x ∈ l →
      ∃ i, jsIndexOfNat l x = some i ∧ l.get? i = some x := by
  intro l x
  induction l with
  | nil => intro h; simp at h
  | cons y ys ih =>
    intro hmem
    by_cases h : y = x
    · exact ⟨0, by simp [jsIndexOfNat, h], by simp [h]⟩
    · have hx : x ∈ ys := by
        rcases List.mem_cons.mp hmem with h2 | h2
        · exact absurd h2.symm h
        · exact h2
      obtain ⟨i, h1, h2⟩ := ih hx
      exact ⟨i + 1, by simp [jsIndexOfNat, h, h1], by simpa using h2⟩

theorem length_filterMap_of_isSome {f : α → Option β} :
    ∀ (l : List α), (∀ x ∈ l, (f x).isSome) →
      (l.filterMap f).length = l.length := by
  intro l
  induction l with
  | nil => intro _; simp
  | cons x xs ih =>
    intro h
    have hx := h x (List.mem_cons_self x xs)
    obtain ⟨b, hb⟩ := Option.isSome_iff_exists.mp hx
    rw [List.filterMap_cons, hb]
    simp only [List.length_cons]
    rw [ih (fun y hy => h y (List.mem_cons_of_mem x hy))]

/-! ### `byCodeGet` lemmas -/

theorem byCodeGet_isSome {pool : List Country} {code : String}
    (h : code ∈ pool.map (·.cca2)) : (byCodeGet pool code).isSome := by
  unfold byCodeGet
  rw [List.find?_isSome]
  obtain ⟨c, hc, hcode⟩ := List.mem_map.mp h
  exact ⟨c, List.mem_reverse.mpr hc, by simp [hcode]⟩

theorem byCodeGet_eq_some {pool : List Country} {code : String} {c : Country}
    (h : byCodeGet pool code = some c) : c.cca2 = code ∧ c ∈ pool := by
  unfold byCodeGet at h
  have h1 := List.find?_some h
  have h2 := List.mem_of_find?_eq_some h
  exact ⟨by simpa using h1, List.mem_reverse.mp h2⟩

/-! ### Question construction lemmas -/

/-- Structural facts about `buildMultipleChoiceQuestion`: the choices are a
permutation of the correct name consed onto the (up to) three drawn wrong
names, with the consequences for length, membership and duplicate-freedom. -/
theorem mcq_spec (g : Nat → Nat) (country : Country) (pool : List Country) (k : Nat) :
    let wrongPool := (pool.map (·.name)).filter (fun n => decide (n ≠ country.name))
    let q := (buildMultipleChoiceQuestion g country pool k).1
    List.Perm q.choices
        (country.name :: ((shuffleInPlace g wrongPool k).1.take 3)) ∧
    q.choices.length = 1 + min 3 wrongPool.length ∧
    country.name ∈ q.choices ∧
    q.prompt_id = country.cca2 ∧
    (∀ x ∈ q.choices, x = country.name ∨ x ∈ wrongPool) ∧
    (wrongPool.Nodup → q.choices.Nodup) ∧
    q.correct_index = jsIndexOf q.choices country.name := by
  intro wrongPool q
  have hwp := shuffleInPlace_perm g wrongPool k
  have hchoices : q.choices =
      (shuffleInPlace g (country.name :: ((shuffleInPlace g wrongPool k).1.take 3))
        (shuffleInPlace g wrongPool k).2).1 := rfl
  have hperm : List.Perm q.choices
      (country.name :: ((shuffleInPlace g wrongPool k).1.take 3)) := by
    rw [hchoices]
    exact shuffleInPlace_perm g _ _
  have hname_notin : country.name ∉ wrongPool := by
    intro hmem
    have := (List.mem_filter.mp hmem).2
    simp at this
  have htake_sub : List.Sublist ((shuffleInPlace g wrongPool k).1.take 3)
      (shuffleInPlace g wrongPool k).1 := List.take_sublist 3 _
  refine ⟨hperm, ?_, ?_, rfl, ?_, ?_, rfl⟩
  · rw [hperm.length_eq]
    simp [List.length_take, shuffleInPlace_length]
    omega
  · exact hperm.mem_iff.mpr (List.mem_cons_self _ _)
  · intro x hx
    rcases List.mem_cons.mp (hperm.mem_iff.mp hx) with h | h
    · exact Or.inl h
    · exact Or.inr ((shuffleInPlace_mem g k).mp (htake_sub.mem h))
  · intro hnd
    rw [hperm.nodup_iff]
    refine List.nodup_cons.mpr ⟨?_, ?_⟩
    · intro hmem
      exact hname_notin ((shuffleInPlace_mem g k).mp (htake_sub.mem hmem))
    · exact htake_sub.nodup (shuffleInPlace_nodup g k hnd)

/-- `correct_index` is the index of the correct name: it is non-negative and
indexing the choices with it yields the correct country name. -/
theorem mcq_correct_index_points (g : Nat → Nat) (country : Country)
    (pool : List Country) (k : Nat) :
    0 ≤ (buildMultipleChoiceQuestion g country pool k).1.correct_index ∧
    (buildMultipleChoiceQuestion g country pool k).1.choices.get?
      (buildMultipleChoiceQuestion g country pool k).1.correct_index.toNat =
        some country.name := by
  obtain ⟨-, -, h3, -, -, -, h7⟩ := mcq_spec g country pool k
  obtain ⟨i, hi, hget⟩ := jsIndexOfNat_spec _ _ h3
  constructor
  · rw [h7]; simp [jsIndexOf, hi]
  · rw [h7]; simpa [jsIndexOf, hi] using hget

/-- C1 (as stated, counterexample): a pool can contain at least 4 distinct
names while still repeating a name under two codes; then the generated
choices can contain a duplicate.  Here the pool is
`[A, B(BB), B(BC), C, D]`, the question is built for `A`, and the random
source keeps every shuffle in place, producing choices `[A, B, B, C]`. -/
theorem mcq_choices_can_duplicate :
    4 ≤ ((poolDupName.map (·.name)).dedup).length ∧
    (⟨"A", "AA"⟩ : Country) ∈ poolDupName ∧
    (buildMultipleChoiceQuestion gSeq ⟨"A", "AA"⟩ poolDupName 0).1.choices =
      ["A", "B", "B", "C"] ∧
    ¬ (buildMultipleChoiceQuestion gSeq ⟨"A", "AA"⟩ poolDupName 0).1.choices.Nodup := by
  decide

/-- C1 (amended): for every question built from a country of a pool whose
display names are pairwise distinct and number at least 4, the choices have
length exactly 4, contain no duplicates, `choices[correct_index]` is the
correct country name, and every wrong choice is a pool name other than the
correct one. -/
theorem mcq_four_distinct_choices (g : Nat → Nat) (k : Nat) (country : Country)
    (pool : List Country) (hmem : country ∈ pool)
    (hnames : (pool.map (·.name)).Nodup) (hlen : 4 ≤ pool.length) :
    (buildMultipleChoiceQuestion g country pool k).1.choices.length = 4 ∧
    (buildMultipleChoiceQuestion g country pool k).1.choices.Nodup ∧
    0 ≤ (buildMultipleChoiceQuestion g country pool k).1.correct_index ∧
    (buildMultipleChoiceQuestion g country pool k).1.choices.get?
      (buildMultipleChoiceQuestion g country pool k).1.correct_index.toNat =
        some country.name ∧
    (∀ x ∈ (buildMultipleChoiceQuestion g country pool k).1.choices,
      x ≠ country.name → x ∈ pool.map (·.name)) := by
  obtain ⟨h1, h2, h3, -, h5, h6, -⟩ := mcq_spec g country pool k
  have hnmem : country.name ∈ pool.map (·.name) := List.mem_map_of_mem _ hmem
  have hwplen := length_filter_ne_of_nodup (pool.map (·.name)) country.name hnames hnmem
  have hmaplen : (pool.map (·.name)).length = pool.length := List.length_map _ _
  obtain ⟨hnn, hget⟩ := mcq_correct_index_points g country pool k
  refine ⟨?_, h6 (hnames.filter _), hnn, hget, ?_⟩
  · rw [h2]
    omega
  · intro x hx hxne
    rcases h5 x hx with h | h
    · exact absurd h hxne
    · exact (List.mem_filter.mp h).1

/-- C1 witness: the amended statement holds on the concrete four-country
pool `pool4` with the constant-zero random source. -/
theorem mcq_four_distinct_choices_witness :
    (buildMultipleChoiceQuestion gZero (⟨"A", "AA"⟩ : Country) pool4 0).1.choices.length = 4 ∧
    (buildMultipleChoiceQuestion gZero ⟨"A", "AA"⟩ pool4 0).1.choices.Nodup ∧
    0 ≤ (buildMultipleChoiceQuestion gZero ⟨"A", "AA"⟩ pool4 0).1.correct_index ∧
    (buildMultipleChoiceQuestion gZero ⟨"A", "AA"⟩ pool4 0).1.choices.get?
      (buildMultipleChoiceQuestion gZero ⟨"A", "AA"⟩ pool4 0).1.correct_index.toNat =
        some (Country.mk "A" "AA").name ∧
    (∀ x ∈ (buildMultipleChoiceQuestion gZero ⟨"A", "AA"⟩ pool4 0).1.choices,
      x ≠ (Country.mk "A" "AA").name → x ∈ pool4.map (·.name)) :=
  mcq_four_distinct_choices gZero 0 ⟨"A", "AA"⟩ pool4 (by decide) (by decide) (by decide)

/-- C8: when the pool holds fewer than 3 names other than the correct one,
`buildMultipleChoiceQuestion` still returns a well-formed question (it is a
total function): the choices are a permutation of the correct name plus all
available wrong names, so they number fewer than 4, and `correct_index`
still points at the correct name. -/
theorem mcq_small_pool_total (g : Nat → Nat) (k : Nat) (country : Country)
    (pool : List Country)
    (hsmall : ((pool.map (·.name)).filter (fun n => decide (n ≠ country.name))).length < 3) :
    (buildMultipleChoiceQuestion g country pool k).1.choices.length < 4 ∧
    List.Perm (buildMultipleChoiceQuestion g country pool k).1.choices
      (country.name :: (pool.map (·.name)).filter (fun n => decide (n ≠ country.name))) ∧
    (buildMultipleChoiceQuestion g country pool k).1.choices.get?
      (buildMultipleChoiceQuestion g country pool k).1.correct_index.toNat =
        some country.name := by
  obtain ⟨h1, h2, -, -, -, -, -⟩ := mcq_spec g country pool k
  obtain ⟨-, hget⟩ := mcq_correct_index_points g country pool k
  have hsl := shuffleInPlace_length g
    ((pool.map (·.name)).filter (fun n => decide (n ≠ country.name))) k
  have htake : ((shuffleInPlace g
      ((pool.map (·.name)).filter (fun n => decide (n ≠ country.name))) k).1.take 3) =
      (shuffleInPlace g
        ((pool.map (·.name)).filter (fun n => decide (n ≠ country.name))) k).1 :=
    List.take_of_length_le (by omega)
  refine ⟨by rw [h2]; omega, ?_, hget⟩
  rw [htake] at h1
  exact h1.trans (List.Perm.cons _ (shuffleInPlace_perm g _ k))

/-- C8 witness: on a two-country pool there is only one wrong name; the
question still has the correct shape. -/
theorem mcq_small_pool_total_witness :
    (buildMultipleChoiceQuestion gZero (⟨"Albania", "AL"⟩ : Country)
      cache2.countries 0).1.choices.length < 4 ∧
    List.Perm (buildMultipleChoiceQuestion gZero ⟨"Albania", "AL"⟩
        cache2.countries 0).1.choices
      ((Country.mk "Albania" "AL").name ::
        (cache2.countries.map (·.name)).filter
          (fun n => decide (n ≠ (Country.mk "Albania" "AL").name))) ∧
    (buildMultipleChoiceQuestion gZero ⟨"Albania", "AL"⟩ cache2.countries 0).1.choices.get?
      (buildMultipleChoiceQuestion gZero ⟨"Albania", "AL"⟩
        cache2.countries 0).1.correct_index.toNat =
        some (Country.mk "Albania" "AL").name :=
  mcq_small_pool_total gZero 0 ⟨"Albania", "AL"⟩ cache2.countries (by decide)

/-! ### Quickfire helper lemmas -/

theorem pickRandomFrom_length (g : Nat → Nat) (l : List α) (n k : Nat) :
    (pickRandomFrom g l n k).1.length = min n l.length := by
  show ((shuffleInPlace g l k).1.take n).length = min n l.length
  rw [List.length_take, shuffleInPlace_length]

theorem pickRandomFrom_mem (g : Nat → Nat) {l : List α} {n k : Nat} :
    ∀ x ∈ (pickRandomFrom g l n k).1, x ∈ l := by
  intro x hx
  exact (shuffleInPlace_mem g k).mp ((List.take_sublist n _).mem hx)

theorem mem_map_of_byCodeGet_isSome {pool : List Country} {code : String}
    (h : (byCodeGet pool code).isSome) : code ∈ pool.map (·.cca2) := by
  obtain ⟨c, hc⟩ := Option.isSome_iff_exists.mp h
  obtain ⟨h1, h2⟩ := byCodeGet_eq_some hc
  exact List.mem_map.mpr ⟨c, h2, h1⟩

theorem eligibleTierCodes_subset_pool {tier : List String} {pool : List Country} :
    ∀ x ∈ eligibleTierCodes tier pool, x ∈ pool.map (·.cca2) := by
  intro x hx
  have h := (List.mem_filter.mp hx).2
  exact mem_map_of_byCodeGet_isSome (by simpa using h)

theorem filterMap_byCodeGet_length {pool : List Country} {l : List String}
    (h : ∀ x ∈ l, x ∈ pool.map (·.cca2)) :
    (l.filterMap (byCodeGet pool)).length = l.length :=
  length_filterMap_of_isSome l (fun x hx => byCodeGet_isSome (h x hx))

theorem mem_filterMap_byCodeGet {pool : List Country} {l : List String} {c : Country}
    (h : c ∈ l.filterMap (byCodeGet pool)) : c ∈ pool ∧ c.cca2 ∈ l := by
  obtain ⟨a, ha, hsome⟩ := List.mem_filterMap.mp h
  obtain ⟨h1, h2⟩ := byCodeGet_eq_some hsome
  exact ⟨h2, h1 ▸ ha⟩

theorem length_filter_split (p : α → Bool) : ∀ (L : List α),
    (L.filter p).length + (L.filter (fun x => !(p x))).length = L.length := by
  intro L
  induction L with
  | nil => simp
  | cons x xs ih =>
    cases hpx : p x <;> simp [List.filter_cons, hpx] <;> omega

theorem length_filter_mem_le (L used : List String) (h : L.Nodup) :
    (L.filter (fun x => decide (x ∈ used))).length ≤ used.length := by
  have hnd : (L.filter (fun x => decide (x ∈ used))).Nodup := h.filter _
  have hsub : (L.filter (fun x => decide (x ∈ used))) ⊆ used := by
    intro x hx
    have := (List.mem_filter.mp hx).2
    simpa using this
  exact (List.subperm_of_subset hnd hsub).length_le

theorem length_remaining_ge {L used : List String} (h : L.Nodup) :
    L.length ≤ (L.filter (fun x => decide (¬ x ∈ used))).length + used.length := by
  have h1 := length_filter_split (fun x => decide (x ∈ used)) L
  have h2 := length_filter_mem_le L used h
  have h3 : L.filter (fun x => !(decide (x ∈ used))) =
      L.filter (fun x => decide (¬ x ∈ used)) := by
    simp only [decide_not]
  rw [h3] at h1
  omega

theorem buildQuestionList_length (g : Nat → Nat) (pool : List Country) :
    ∀ (run : List Country) (k : Nat),
      (buildQuestionList g pool run k).1.length = run.length := by
  intro run
  induction run with
  | nil => intro k; simp [buildQuestionList]
  | cons c cs ih => intro k; simp [buildQuestionList, ih]

theorem buildQuestionList_prompt_ids (g : Nat → Nat) (pool : List Country) :
    ∀ (run : List Country) (k : Nat),
      (buildQuestionList g pool run k).1.map (·.prompt_id) = run.map (·.cca2) := by
  intro run
  induction run with
  | nil => intro k; simp [buildQuestionList]
  | cons c cs ih =>
    intro k
    have hpid : (buildMultipleChoiceQuestion g c pool k).1.prompt_id = c.cca2 := rfl
    simp [buildQuestionList, hpid, ih]

/-- Structural decomposition of `buildTieredQuickfire`: the run is three
consecutive sections; the first holds exactly the tier-1 draws, the second
the tier-2 draws, the third the tier-3 draws plus any top-up; when no tier
falls short the third section is pure tier 3; and for a duplicate-free pool
of at least 30, the run totals exactly 30. -/
theorem buildTieredQuickfire_decomp (g : Nat → Nat) (pool : List Country) (k : Nat) :
    ∃ s1 s2 s3 : List Country,
      (buildTieredQuickfire g pool k).1 = s1 ++ s2 ++ s3 ∧
      (∀ c ∈ s1, c ∈ pool ∧ c.cca2 ∈ eligibleTierCodes TIER_1 pool) ∧
      (∀ c ∈ s2, c ∈ pool ∧ c.cca2 ∈ eligibleTierCodes TIER_2 pool) ∧
      (∀ c ∈ s3, c ∈ pool) ∧
      s1.length = min 10 (eligibleTierCodes TIER_1 pool).length ∧
      s2.length = min 10 (eligibleTierCodes TIER_2 pool).length ∧
      (10 ≤ (eligibleTierCodes TIER_1 pool).length →
        10 ≤ (eligibleTierCodes TIER_2 pool).length →
        10 ≤ (eligibleTierCodes TIER_3 pool).length →
        s3.length = 10 ∧ ∀ c ∈ s3, c.cca2 ∈ eligibleTierCodes TIER_3 pool) ∧
      ((pool.map (·.cca2)).Nodup → 30 ≤ pool.length →
        s1.length + s2.length + s3.length = 30) := by
  set t1 := eligibleTierCodes TIER_1 pool with ht1def
  set t2 := eligibleTierCodes TIER_2 pool with ht2def
  set t3 := eligibleTierCodes TIER_3 pool with ht3def
  set p1 := pickRandomFrom g t1 10 k with hp1def
  set p2 := pickRandomFrom g t2 10 p1.2 with hp2def
  set p3 := pickRandomFrom g t3 10 p2.2 with hp3def
  set used := p1.1 ++ p2.1 ++ p3.1 with huseddef
  set need := 30 - (p1.1.length + p2.1.length + p3.1.length) with hneeddef
  set remaining := (pool.map (·.cca2)).filter (fun code => decide (¬ code ∈ used))
    with hremdef
  set pe := pickRandomFrom g remaining need p3.2 with hpedef
  have hlen1 : p1.1.length = min 10 t1.length := pickRandomFrom_length g t1 10 k
  have hlen2 : p2.1.length = min 10 t2.length := pickRandomFrom_length g t2 10 p1.2
  have hlen3 : p3.1.length = min 10 t3.length := pickRandomFrom_length g t3 10 p2.2
  have hm1 : ∀ x ∈ p1.1, x ∈ t1 := pickRandomFrom_mem g
  have hm2 : ∀ x ∈ p2.1, x ∈ t2 := pickRandomFrom_mem g
  have hm3 : ∀ x ∈ p3.1, x ∈ t3 := pickRandomFrom_mem g
  have hp1pool : ∀ x ∈ p1.1, x ∈ pool.map (·.cca2) :=
    fun x hx => eligibleTierCodes_subset_pool x (hm1 x hx)
  have hp2pool : ∀ x ∈ p2.1, x ∈ pool.map (·.cca2) :=
    fun x hx => eligibleTierCodes_subset_pool x (hm2 x hx)
  have hp3pool : ∀ x ∈ p3.1, x ∈ pool.map (·.cca2) :=
    fun x hx => eligibleTierCodes_subset_pool x (hm3 x hx)
  have hunfold : buildTieredQuickfire g pool k =
      (let topped := if need > 0 then (p3.1 ++ pe.1, pe.2) else (p3.1, p3.2)
       let s1 := shuffleInPlace g p1.1 topped.2
       let s2 := shuffleInPlace g p2.1 s1.2
       let s3 := shuffleInPlace g topped.1 s2.2
       ((s1.1 ++ s2.1 ++ s3.1).filterMap (byCodeGet pool), s3.2)) := rfl
  by_cases hpos : need > 0
  · rw [if_pos hpos] at hunfold
    simp only [] at hunfold
    refine ⟨(shuffleInPlace g p1.1 pe.2).1.filterMap (byCodeGet pool),
      (shuffleInPlace g p2.1 (shuffleInPlace g p1.1 pe.2).2).1.filterMap (byCodeGet pool),
      (shuffleInPlace g (p3.1 ++ pe.1)
        (shuffleInPlace g p2.1 (shuffleInPlace g p1.1 pe.2).2).2).1.filterMap
          (byCodeGet pool),
      ?_, ?_, ?_, ?_, ?_, ?_, ?_, ?_⟩
    · rw [hunfold]
      simp [List.filterMap_append]
    · intro c hc
      obtain ⟨hcp, hcode⟩ := mem_filterMap_byCodeGet hc
      exact ⟨hcp, hm1 _ ((shuffleInPlace_mem g pe.2).mp hcode)⟩
    · intro c hc
      obtain ⟨hcp, hcode⟩ := mem_filterMap_byCodeGet hc
      exact ⟨hcp, hm2 _ ((shuffleInPlace_mem g _).mp hcode)⟩
    · intro c hc
      exact (mem_filterMap_byCodeGet hc).1
    · rw [filterMap_byCodeGet_length
        (fun x hx => hp1pool x ((shuffleInPlace_mem g pe.2).mp hx))]
      rw [shuffleInPlace_length, hlen1]
    · rw [filterMap_byCodeGet_length
        (fun x hx => hp2pool x ((shuffleInPlace_mem g _).mp hx))]
      rw [shuffleInPlace_length, hlen2]
    · intro h10a h10b h10c
      exfalso
      omega
    · intro hnodup h30
      have hpe_mem : ∀ x ∈ pe.1, x ∈ pool.map (·.cca2) := by
        intro x hx
        have := pickRandomFrom_mem g x hx
        exact (List.mem_filter.mp this).1
      have hs3codes : ∀ x ∈ p3.1 ++ pe.1, x ∈ pool.map (·.cca2) := by
        intro x hx
        rcases List.mem_append.mp hx with h | h
        · exact hp3pool x h
        · exact hpe_mem x h
      rw [filterMap_byCodeGet_length
        (fun x hx => hp1pool x ((shuffleInPlace_mem g pe.2).mp hx))]
      rw [filterMap_byCodeGet_length
        (fun x hx => hp2pool x ((shuffleInPlace_mem g _).mp hx))]
      rw [filterMap_byCodeGet_length
        (fun x hx => hs3codes x ((shuffleInPlace_mem g _).mp hx))]
      rw [shuffleInPlace_length, shuffleInPlace_length, shuffleInPlace_length]
      have hpelen : pe.1.length = min need remaining.length :=
        pickRandomFrom_length g remaining need p3.2
      have hrem : (pool.map (·.cca2)).length ≤ remaining.length + used.length := by
        rw [hremdef]
        exact length_remaining_ge hnodup
      have hmaplen : (pool.map (·.cca2)).length = pool.length := List.length_map _ _
      have husedlen : used.length = p1.1.length + p2.1.length + p3.1.length := by
        rw [huseddef]
        simp [List.length_append]
        omega
      simp only [List.length_append]
      omega
  · rw [if_neg hpos] at hunfold
    simp only [] at hunfold
    refine ⟨(shuffleInPlace g p1.1 p3.2).1.filterMap (byCodeGet pool),
      (shuffleInPlace g p2.1 (shuffleInPlace g p1.1 p3.2).2).1.filterMap (byCodeGet pool),
      (shuffleInPlace g p3.1
        (shuffleInPlace g p2.1 (shuffleInPlace g p1.1 p3.2).2).2).1.filterMap
          (byCodeGet pool),
      ?_, ?_, ?_, ?_, ?_, ?_, ?_, ?_⟩
    · rw [hunfold]
      simp [List.filterMap_append]
    · intro c hc
      obtain ⟨hcp, hcode⟩ := mem_filterMap_byCodeGet hc
      exact ⟨hcp, hm1 _ ((shuffleInPlace_mem g p3.2).mp hcode)⟩
    · intro c hc
      obtain ⟨hcp, hcode⟩ := mem_filterMap_byCodeGet hc
      exact ⟨hcp, hm2 _ ((shuffleInPlace_mem g _).mp hcode)⟩
    · intro c hc
      exact (mem_filterMap_byCodeGet hc).1
    · rw [filterMap_byCodeGet_length
        (fun x hx => hp1pool x ((shuffleInPlace_mem g p3.2).mp hx))]
      rw [shuffleInPlace_length, hlen1]
    · rw [filterMap_byCodeGet_length
        (fun x hx => hp2pool x ((shuffleInPlace_mem g _).mp hx))]
      rw [shuffleInPlace_length, hlen2]
    · intro h10a h10b h10c
      constructor
      · rw [filterMap_byCodeGet_length
          (fun x hx => hp3pool x ((shuffleInPlace_mem g _).mp hx))]
        rw [shuffleInPlace_length, hlen3]
        omega
      · intro c hc
        obtain ⟨hcp, hcode⟩ := mem_filterMap_byCodeGet hc
        exact hm3 _ ((shuffleInPlace_mem g _).mp hcode)
    · intro hnodup h30
      rw [filterMap_byCodeGet_length
        (fun x hx => hp1pool x ((shuffleInPlace_mem g p3.2).mp hx))]
      rw [filterMap_byCodeGet_length
        (fun x hx => hp2pool x ((shuffleInPlace_mem g _).mp hx))]
      rw [filterMap_byCodeGet_length
        (fun x hx => hp3pool x ((shuffleInPlace_mem g _).mp hx))]
      rw [shuffleInPlace_length, shuffleInPlace_length, shuffleInPlace_length]
      omega

/-! ### Handler unfolding lemmas -/

/-- On a loaded cache and the `flags` category, the serverless handler
always succeeds, with the 200 body fully determined by the parsed mode. -/
theorem questionsetHandler_loaded_eq (g : Nat → Nat) (k : Nat)
    (fetched : FetchOutcome) (pool : List Country) (modeQ : Option String)
    (now : Nat) :
    questionsetHandler g k fetched ⟨true, pool⟩ modeQ (some "flags") now =
      HandlerResult.success
        [("Cache-Control", "no-store, no-cache, must-revalidate, proxy-revalidate"),
         ("Pragma", "no-cache"), ("Expires", "0")]
        { mode := jsToLower (jsOrDefault modeQ "quickfire")
          category := jsToLower (jsOrDefault (some "flags") "flags")
          totalPlanned :=
            if jsToLower (jsOrDefault modeQ "quickfire") = "hardmode" then 195 else 30
          totalAvailable := pool.length
          totalUsed := (buildQuestionList g pool
            (if jsToLower (jsOrDefault modeQ "quickfire") = "hardmode"
              then ((shuffleInPlace g pool k).1.take 195, (shuffleInPlace g pool k).2)
              else ((buildTieredQuickfire g pool k).1.take 30,
                (buildTieredQuickfire g pool k).2)).1
            (if jsToLower (jsOrDefault modeQ "quickfire") = "hardmode"
              then ((shuffleInPlace g pool k).1.take 195, (shuffleInPlace g pool k).2)
              else ((buildTieredQuickfire g pool k).1.take 30,
                (buildTieredQuickfire g pool k).2)).2).1.length
          questions := (buildQuestionList g pool
            (if jsToLower (jsOrDefault modeQ "quickfire") = "hardmode"
              then ((shuffleInPlace g pool k).1.take 195, (shuffleInPlace g pool k).2)
              else ((buildTieredQuickfire g pool k).1.take 30,
                (buildTieredQuickfire g pool k).2)).1
            (if jsToLower (jsOrDefault modeQ "quickfire") = "hardmode"
              then ((shuffleInPlace g pool k).1.take 195, (shuffleInPlace g pool k).2)
              else ((buildTieredQuickfire g pool k).1.take 30,
                (buildTieredQuickfire g pool k).2)).2).1
          generatedAt := some now
          quickfireRamp :=
            if jsToLower (jsOrDefault modeQ "quickfire") ≠ "hardmode"
              then some (10, 10, 10) else none } := rfl

/-- On a loaded cache and the `flags` category, the Express handler always
succeeds — with an empty header list. -/
theorem serverQuestionsetHandler_loaded_eq (g : Nat → Nat) (k : Nat)
    (pool : List Country) (modeQ : Option String) :
    serverQuestionsetHandler g k ⟨true, pool⟩ modeQ (some "flags") =
      HandlerResult.success []
        { mode := jsToLower (jsOrDefault modeQ "quickfire")
          category := jsToLower (jsOrDefault (some "flags") "flags")
          totalPlanned :=
            if jsToLower (jsOrDefault modeQ "quickfire") = "hardmode" then 195 else 30
          totalAvailable := pool.length
          totalUsed := (buildQuestionListSrv g pool
            (if jsToLower (jsOrDefault modeQ "quickfire") = "hardmode"
              then (shuffleInPlace g pool k).1.take 195
              else (shuffleInPlace g pool k).1.take 30)
            (shuffleInPlace g pool k).2).1.length
          questions := (buildQuestionListSrv g pool
            (if jsToLower (jsOrDefault modeQ "quickfire") = "hardmode"
              then (shuffleInPlace g pool k).1.take 195
              else (shuffleInPlace g pool k).1.take 30)
            (shuffleInPlace g pool k).2).1
          generatedAt := none
          quickfireRamp := none } := rfl

/-- C2: for every quickfire run over a duplicate-free eligible pool of at
least 30 countries, the tiered builder emits exactly 30 selections — the
per-tier draws plus the shortfall top-up always total 30 — and the handler
answers with exactly 30 questions. -/
theorem quickfire_exactly_30 (g : Nat → Nat) (k : Nat) (pool : List Country)
    (fetched : FetchOutcome) (now : Nat)
    (hnodup : (pool.map (·.cca2)).Nodup) (h30 : 30 ≤ pool.length) :
    (buildTieredQuickfire g pool k).1.length = 30 ∧
    (questionsetHandler g k fetched ⟨true, pool⟩ (some "quickfire")
      (some "flags") now).questionsOf.length = 30 := by
  obtain ⟨s1, s2, s3, heq, -, -, -, -, -, -, htot⟩ := buildTieredQuickfire_decomp g pool k
  have hlen : (buildTieredQuickfire g pool k).1.length = 30 := by
    rw [heq]
    simp only [List.length_append]
    have := htot hnodup h30
    omega
  refine ⟨hlen, ?_⟩
  rw [questionsetHandler_loaded_eq]
  simp only [HandlerResult.questionsOf]
  have hm : jsToLower (jsOrDefault (some "quickfire") "quickfire") = "quickfire" := rfl
  rw [hm]
  simp only [show (("quickfire" : String) = "hardmode") = False by simp, if_false]
  rw [buildQuestionList_length, List.length_take, hlen]
  omega

/-- C2 witness: a concrete 30-country pool with distinct codes yields a
30-question quickfire run. -/
theorem quickfire_exactly_30_witness :
    (buildTieredQuickfire gZero pool30 0).1.length = 30 ∧
    (questionsetHandler gZero 0 (.networkError "down") ⟨true, pool30⟩
      (some "quickfire") (some "flags") 0).questionsOf.length = 30 :=
  quickfire_exactly_30 gZero 0 pool30 (.networkError "down") 0 (by decide) (by decide)

/-- C3: a hardmode run over a duplicate-free eligible pool produces exactly
`min pool.length 195` questions, and no country code (`prompt_id`) appears
twice in the run. -/
theorem hardmode_size_and_distinct (g : Nat → Nat) (k : Nat)
    (fetched : FetchOutcome) (pool : List Country) (now : Nat)
    (hnodup : (pool.map (·.cca2)).Nodup) :
    (questionsetHandler g k fetched ⟨true, pool⟩ (some "hardmode")
      (some "flags") now).questionsOf.length = min pool.length 195 ∧
    ((questionsetHandler g k fetched ⟨true, pool⟩ (some "hardmode")
      (some "flags") now).questionsOf.map (·.prompt_id)).Nodup := by
  rw [questionsetHandler_loaded_eq]
  simp only [HandlerResult.questionsOf]
  have hm : jsToLower (jsOrDefault (some "hardmode") "quickfire") = "hardmode" := rfl
  rw [hm]
  simp only [show (("hardmode" : String) = "hardmode") = True by simp, if_true]
  constructor
  · rw [buildQuestionList_length, List.length_take, shuffleInPlace_length]
    omega
  · rw [buildQuestionList_prompt_ids, List.map_take]
    have hperm : List.Perm ((shuffleInPlace g pool k).1.map (·.cca2))
        (pool.map (·.cca2)) := (shuffleInPlace_perm g pool k).map _
    have hnd : ((shuffleInPlace g pool k).1.map (·.cca2)).Nodup :=
      hperm.nodup_iff.mpr hnodup
    exact (List.take_sublist 195 _).nodup hnd

/-- C3 witness: the two-country cache yields 2 hardmode questions with
distinct prompt ids. -/
theorem hardmode_size_and_distinct_witness :
    (questionsetHandler gZero 0 (.networkError "down") ⟨true, cache2.countries⟩
      (some "hardmode") (some "flags") 0).questionsOf.length =
        min cache2.countries.length 195 ∧
    ((questionsetHandler gZero 0 (.networkError "down") ⟨true, cache2.countries⟩
      (some "hardmode") (some "flags") 0).questionsOf.map (·.prompt_id)).Nodup :=
  hardmode_size_and_distinct gZero 0 (.networkError "down") cache2.countries 0 (by decide)

/-- C4: every quickfire run splits into three consecutive sections — the
tier-1 draws, then the tier-2 draws, then the tier-3 draws plus any top-up
from the unused pool — each shuffled only within its own band; when no tier
falls short, the third section is pure tier 3 of length 10. -/
theorem quickfire_tier_ramp (g : Nat → Nat) (pool : List Country) (k : Nat) :
    ∃ s1 s2 s3 : List Country,
      (buildTieredQuickfire g pool k).1 = s1 ++ s2 ++ s3 ∧
      (∀ c ∈ s1, c.cca2 ∈ eligibleTierCodes TIER_1 pool) ∧
      (∀ c ∈ s2, c.cca2 ∈ eligibleTierCodes TIER_2 pool) ∧
      (∀ c ∈ s3, c ∈ pool) ∧
      s1.length = min 10 (eligibleTierCodes TIER_1 pool).length ∧
      s2.length = min 10 (eligibleTierCodes TIER_2 pool).length ∧
      (10 ≤ (eligibleTierCodes TIER_1 pool).length →
        10 ≤ (eligibleTierCodes TIER_2 pool).length →
        10 ≤ (eligibleTierCodes TIER_3 pool).length →
        s3.length = 10 ∧ ∀ c ∈ s3, c.cca2 ∈ eligibleTierCodes TIER_3 pool) := by
  obtain ⟨s1, s2, s3, heq, h1, h2, h3, hl1, hl2, hfull, -⟩ :=
    buildTieredQuickfire_decomp g pool k
  exact ⟨s1, s2, s3, heq, fun c hc => (h1 c hc).2, fun c hc => (h2 c hc).2,
    h3, hl1, hl2, hfull⟩

/-- C4 witness: the decomposition at a concrete pool and random source. -/
theorem quickfire_tier_ramp_witness :
    ∃ s1 s2 s3 : List Country,
      (buildTieredQuickfire gZero pool30 0).1 = s1 ++ s2 ++ s3 ∧
      (∀ c ∈ s1, c.cca2 ∈ eligibleTierCodes TIER_1 pool30) ∧
      (∀ c ∈ s2, c.cca2 ∈ eligibleTierCodes TIER_2 pool30) ∧
      (∀ c ∈ s3, c ∈ pool30) ∧
      s1.length = min 10 (eligibleTierCodes TIER_1 pool30).length ∧
      s2.length = min 10 (eligibleTierCodes TIER_2 pool30).length ∧
      (10 ≤ (eligibleTierCodes TIER_1 pool30).length →
        10 ≤ (eligibleTierCodes TIER_2 pool30).length →
        10 ≤ (eligibleTierCodes TIER_3 pool30).length →
        s3.length = 10 ∧ ∀ c ∈ s3, c.cca2 ∈ eligibleTierCodes TIER_3 pool30) :=
  quickfire_tier_ramp gZero pool30 0

/-- Every outcome of the serverless handler is either an error response or
a success carrying exactly the three no-cache headers. -/
theorem questionsetHandler_headers (g : Nat → Nat) (k : Nat)
    (fetched : FetchOutcome) (cache : FlagsCache) (modeQ catQ : Option String)
    (now : Nat) :
    (∃ s m, questionsetHandler g k fetched cache modeQ catQ now = .err s m) ∨
    (∃ b, questionsetHandler g k fetched cache modeQ catQ now = .success
      [("Cache-Control", "no-store, no-cache, must-revalidate, proxy-revalidate"),
       ("Pragma", "no-cache"), ("Expires", "0")] b) := by
  unfold questionsetHandler
  dsimp only
  split
  · exact Or.inl ⟨_, _, rfl⟩
  · split
    · exact Or.inl ⟨_, _, rfl⟩
    · exact Or.inr ⟨_, rfl⟩

/-- C5 (counterexample): on the Express handler a request with category
`football_flags` — a value other than `flags` — is answered 501, which is
not a 400-class status. -/
theorem server_football_flags_not_4xx :
    (serverQuestionsetHandler gZero 0 cache2 (some "quickfire")
      (some "football_flags")).statusOf = 501 ∧
    ¬ ((serverQuestionsetHandler gZero 0 cache2 (some "quickfire")
      (some "football_flags")).statusOf < 500) := by
  decide

/-- C5 (amended): for every request whose parsed category is not `flags`,
the serverless handler answers 400; the Express handler answers 400 unless
the parsed category is `football_flags`, which it answers 501 when the
cache is loaded and 503 otherwise.  No category other than `flags` is ever
accepted. -/
theorem category_validation (g : Nat → Nat) (k : Nat) (fetched : FetchOutcome)
    (cache : FlagsCache) (modeQ : Option String) (now : Nat)
    (catQ : Option String)
    (hcat : jsToLower (jsOrDefault catQ "flags") ≠ "flags") :
    (questionsetHandler g k fetched cache modeQ catQ now).statusOf = 400 ∧
    (jsToLower (jsOrDefault catQ "flags") ≠ "football_flags" →
      (serverQuestionsetHandler g k cache modeQ catQ).statusOf = 400) ∧
    (jsToLower (jsOrDefault catQ "flags") = "football_flags" →
      cache.loaded = true →
      (serverQuestionsetHandler g k cache modeQ catQ).statusOf = 501) ∧
    (jsToLower (jsOrDefault catQ "flags") = "football_flags" →
      cache.loaded = false →
      (serverQuestionsetHandler g k cache modeQ catQ).statusOf = 503) := by
  refine ⟨?_, ?_, ?_, ?_⟩
  · unfold questionsetHandler
    rw [if_pos hcat]
    rfl
  · intro hcat2
    unfold serverQuestionsetHandler
    rw [if_pos ⟨hcat, hcat2⟩]
    rfl
  · intro hcat2 hloaded
    unfold serverQuestionsetHandler
    rw [if_neg (fun h => h.2 hcat2), hloaded]
    simp only [Bool.not_true, if_neg]
    rw [if_neg (by simp), if_neg hcat]
    rfl
  · intro hcat2 hloaded
    unfold serverQuestionsetHandler
    rw [if_neg (fun h => h.2 hcat2), hloaded]
    rfl

/-- C5 witness: a `capitals` request is answered 400 by both handlers. -/
theorem category_validation_witness :
    (questionsetHandler gZero 0 (.networkError "down") cache2 (some "quickfire")
      (some "capitals") 0).statusOf = 400 ∧
    (jsToLower (jsOrDefault (some "capitals") "flags") ≠ "football_flags" →
      (serverQuestionsetHandler gZero 0 cache2 (some "quickfire")
        (some "capitals")).statusOf = 400) ∧
    (jsToLower (jsOrDefault (some "capitals") "flags") = "football_flags" →
      cache2.loaded = true →
      (serverQuestionsetHandler gZero 0 cache2 (some "quickfire")
        (some "capitals")).statusOf = 501) ∧
    (jsToLower (jsOrDefault (some "capitals") "flags") = "football_flags" →
      cache2.loaded = false →
      (serverQuestionsetHandler gZero 0 cache2 (some "quickfire")
        (some "capitals")).statusOf = 503) :=
  category_validation gZero 0 (.networkError "down") cache2 (some "quickfire") 0
    (some "capitals") (by decide)

/-- C6: a cache load is all-or-nothing.  A load fails exactly on network
error, non-success status or body parse failure; a failed load (and the
reload endpoint built on it) leaves the previous cache — countries and
loaded flag — untouched and answers 500; only a fully successful load
replaces the cache, with the filtered and deduplicated list. -/
theorem reload_all_or_nothing (old : FlagsCache) (f : FetchOutcome) :
    (∀ e, loadFlagsIntoCache f = .error e →
      applyLoad old f = (old, .error e) ∧ reloadFlagsHandler old f = (old, 500)) ∧
    (∀ all st stx, f = .response true st stx (.ok all) →
      reloadFlagsHandler old f = (⟨true, processCountries all⟩, 200)) ∧
    ((∃ e, loadFlagsIntoCache f = .error e) ↔
      (∃ m, f = .networkError m) ∨
      (∃ st stx b, f = .response false st stx b) ∨
      (∃ st stx e, f = .response true st stx (.error e))) := by
  refine ⟨?_, ?_, ?_, ?_⟩
  · intro e he
    unfold applyLoad reloadFlagsHandler
    rw [he]
    exact ⟨rfl, rfl⟩
  · intro all st stx hf
    subst hf
    rfl
  · rintro ⟨e, he⟩
    cases f with
    | networkError m => exact Or.inl ⟨m, rfl⟩
    | response ok st stx body =>
      cases ok with
      | false => exact Or.inr (Or.inl ⟨st, stx, body, rfl⟩)
      | true =>
        cases body with
        | error e2 => exact Or.inr (Or.inr ⟨st, stx, e2, rfl⟩)
        | ok all => simp [loadFlagsIntoCache] at he
  · rintro (⟨m, rfl⟩ | ⟨st, stx, b, rfl⟩ | ⟨st, stx, e, rfl⟩)
    · exact ⟨m, rfl⟩
    · exact ⟨_, rfl⟩
    · exact ⟨e, rfl⟩

/-- C6 witness: a network failure leaves the two-country cache intact and
the reload endpoint answers 500. -/
theorem reload_all_or_nothing_witness :
    applyLoad cache2 (.networkError "boom") = (cache2, .error "boom") ∧
    reloadFlagsHandler cache2 (.networkError "boom") = (cache2, 500) :=
  (reload_all_or_nothing cache2 (.networkError "boom")).1 "boom" rfl

/-- C7 (counterexample): the Express handler returns success responses with
an empty header list — no `Cache-Control: no-store` at all. -/
theorem server_success_without_no_store :
    (serverQuestionsetHandler gZero 0 cache2 (some "quickfire")
      (some "flags")).isSuccess = true ∧
    (serverQuestionsetHandler gZero 0 cache2 (some "quickfire")
      (some "flags")).headersOf = [] := by
  decide

/-- C7 (amended): every success response of the serverless handler carries
the full no-cache header set, in particular a `Cache-Control` header whose
value starts with `no-store`; the Express dev-server handler sets no such
headers (see the counterexample). -/
theorem questionset_success_no_store (g : Nat → Nat) (k : Nat)
    (fetched : FetchOutcome) (cache : FlagsCache) (modeQ catQ : Option String)
    (now : Nat)
    (hs : (questionsetHandler g k fetched cache modeQ catQ now).isSuccess = true) :
    ("Cache-Control", "no-store, no-cache, must-revalidate, proxy-revalidate") ∈
      (questionsetHandler g k fetched cache modeQ catQ now).headersOf ∧
    ∃ rest, ("Cache-Control", "no-store" ++ rest) ∈
      (questionsetHandler g k fetched cache modeQ catQ now).headersOf := by
  rcases questionsetHandler_headers g k fetched cache modeQ catQ now with
    ⟨s, m, heq⟩ | ⟨b, heq⟩
  · rw [heq] at hs
    simp [HandlerResult.isSuccess] at hs
  · rw [heq]
    refine ⟨List.mem_cons_self _ _, ?_⟩
    refine ⟨", no-cache, must-revalidate, proxy-revalidate", ?_⟩
    have hv : ("no-store" ++ ", no-cache, must-revalidate, proxy-revalidate" : String) =
        "no-store, no-cache, must-revalidate, proxy-revalidate" := rfl
    rw [hv]
    exact List.mem_cons_self _ _

/-- C7 witness: a concrete successful serverless response carries the
no-cache headers. -/
theorem questionset_success_no_store_witness :
    ("Cache-Control", "no-store, no-cache, must-revalidate, proxy-revalidate") ∈
      (questionsetHandler gZero 0 (.networkError "down") cache2 (some "quickfire")
        (some "flags") 0).headersOf ∧
    ∃ rest, ("Cache-Control", "no-store" ++ rest) ∈
      (questionsetHandler gZero 0 (.networkError "down") cache2 (some "quickfire")
        (some "flags") 0).headersOf :=
  questionset_success_no_store gZero 0 (.networkError "down") cache2
    (some "quickfire") (some "flags") 0 (by decide)

/-- C9: the question set depends only on the random source, counter, cache
and query parameters — not on the clock.  Two requests with an identical
random source differ at most in `generatedAt`: questions, their order,
their choices and `correct_index` are all identical. -/
theorem questionset_deterministic (g : Nat → Nat) (k : Nat)
    (fetched : FetchOutcome) (cache : FlagsCache) (modeQ catQ : Option String)
    (t1 t2 : Nat) :
    stripGeneratedAt (questionsetHandler g k fetched cache modeQ catQ t1) =
      stripGeneratedAt (questionsetHandler g k fetched cache modeQ catQ t2) ∧
    (questionsetHandler g k fetched cache modeQ catQ t1).questionsOf =
      (questionsetHandler g k fetched cache modeQ catQ t2).questionsOf := by
  constructor <;>
  · unfold questionsetHandler
    dsimp only
    split
    · rfl
    · split
      · rfl
      · rfl

/-- C10 (counterexample): a raw mode value `HARDMODE` — a value other than
`hardmode` — is not treated as quickfire: it is lower-cased and served as a
hardmode run (`totalPlanned = 195`), though still with a 200 status. -/
theorem mode_uppercase_hardmode_not_quickfire :
    (questionsetHandler gZero 0 (.networkError "down") cache2 (some "HARDMODE")
      (some "flags") 0).statusOf = 200 ∧
    (questionsetHandler gZero 0 (.networkError "down") cache2 (some "HARDMODE")
      (some "flags") 0).totalPlannedOf = 195 := by
  decide

/-- C10 (amended): with the `flags` category and a populated cache, every
request whose lower-cased mode differs from `hardmode` (e.g. `foo`) is
silently served as quickfire with a 200 status by both handlers; no mode
value is ever rejected. -/
theorem unknown_mode_treated_quickfire (g : Nat → Nat) (k : Nat)
    (fetched : FetchOutcome) (pool : List Country) (modeQ : Option String)
    (now : Nat)
    (hmode : jsToLower (jsOrDefault modeQ "quickfire") ≠ "hardmode") :
    (questionsetHandler g k fetched ⟨true, pool⟩ modeQ (some "flags")
      now).statusOf = 200 ∧
    (questionsetHandler g k fetched ⟨true, pool⟩ modeQ (some "flags")
      now).totalPlannedOf = 30 ∧
    (serverQuestionsetHandler g k ⟨true, pool⟩ modeQ (some "flags")).statusOf = 200 ∧
    (serverQuestionsetHandler g k ⟨true, pool⟩ modeQ
      (some "flags")).totalPlannedOf = 30 := by
  rw [questionsetHandler_loaded_eq, serverQuestionsetHandler_loaded_eq]
  refine ⟨rfl, ?_, rfl, ?_⟩
  · simp only [HandlerResult.totalPlannedOf]
    rw [if_neg hmode]
  · simp only [HandlerResult.totalPlannedOf]
    rw [if_neg hmode]

/-- C10 witness: mode `foo` is served as a 30-question quickfire run. -/
theorem unknown_mode_treated_quickfire_witness :
    (questionsetHandler gZero 0 (.networkError "down") ⟨true, cache2.countries⟩
      (some "foo") (some "flags") 0).statusOf = 200 ∧
    (questionsetHandler gZero 0 (.networkError "down") ⟨true, cache2.countries⟩
      (some "foo") (some "flags") 0).totalPlannedOf = 30 ∧
    (serverQuestionsetHandler gZero 0 ⟨true, cache2.countries⟩ (some "foo")
      (some "flags")).statusOf = 200 ∧
    (serverQuestionsetHandler gZero 0 ⟨true, cache2.countries⟩ (some "foo")
      (some "flags")).totalPlannedOf = 30 :=
  unknown_mode_treated_quickfire gZero 0 (.networkError "down") cache2.countries
    (some "foo") 0 (by decide)

end FlagQuiz
